import Mathlib

/-
  Verification development for sarchiapone.py, a satellite-transit
  recording scheduler.  The Python source is shallowly embedded below:
  times (ephem dates) and elevations are modelled as rationals, the
  external orbit predictor's answer is an explicit input, and the
  external recording process is represented by the arguments it was
  launched with.  Startup glue (configuration parsing, TLE download,
  logging, the ephem observer object) is outside the embedded core.
-/

/-- Lifecycle status of a pass.  The source stores these as the strings
    "future", "deferred" and "receiving"; removal from the live list plays
    the role of the terminal (closed) state. -/
inductive Status where
  | future
  | deferred
  | receiving
deriving DecidableEq

/-- A tracked satellite (class Satellite).  The TLE download and the ephem
    body are startup glue delegated to external code; the scheduler reads
    only the frequency, the output name (source field output_prefix) and
    the mutable next_check_time. -/
structure Satellite where
  tle_name : String
  frequency : String
  output_pfx : String
  next_check_time : ℚ
deriving DecidableEq

/-- Result of the external orbit predictor (ephem's next_pass tuple;
    indices 0, 2, 3, 4 are the ones the source reads).  The source converts
    the transit altitude from radians to degrees before comparing; the
    altitude is modelled directly in degrees. -/
structure EphemPass where
  rise_time : ℚ
  transit_time : ℚ
  transit_alt_deg : ℚ
  set_time : ℚ
deriving DecidableEq

/-- A satellite pass (class Pass). -/
structure Pass where
  interesting : Bool
  «begin» : ℚ
  tca : ℚ
  «end» : ℚ
  max_elevation : ℚ
  sat : Satellite
  status : Status
deriving DecidableEq

/-- Constructor Pass.__init__: copies the window from the predictor tuple,
    judges validity (the source starts from True and clears the flag on each
    of the three checks, in this order) and sets the initial status.
    `now` is the clock value read during construction. -/
def Pass.init (now : ℚ) (ephem_pass : EphemPass) (sat : Satellite) : Pass :=
  { interesting :=
      if ephem_pass.rise_time ≤ now then false
      else if ephem_pass.transit_alt_deg < 35 then false
      else if ephem_pass.set_time ≤ ephem_pass.rise_time then false
      else true
    «begin» := ephem_pass.rise_time
    tca := ephem_pass.transit_time
    «end» := ephem_pass.set_time
    max_elevation := ephem_pass.transit_alt_deg
    sat := sat
    status := Status.future }

/-- Method Pass.set_status. -/
def Pass.set_status (p : Pass) (status : Status) : Pass :=
  { p with status := status }

/-- The external recording process, represented by the arguments it was
    launched with (subprocess.Popen argument list). -/
structure ProcInfo where
  frequency : String
  demod_file_path : String
  iq_file_path : String
deriving DecidableEq

/-- The recording resource (class Receiver).  The ephem observer fields are
    glue consumed only by the external predictor and are not modelled. -/
structure Receiver where
  output_base : String
  proc : Option ProcInfo
  frequency : Option String
  iq_file_path : Option String
  demod_file_path : Option String
deriving DecidableEq

/-- Constructor Receiver.__init__: no process, no tuned frequency. -/
def Receiver.init (output_base : String) : Receiver :=
  { output_base := output_base, proc := none, frequency := none,
    iq_file_path := none, demod_file_path := none }

/-- Method Receiver.start(frequency, prefix): records the tuned frequency,
    builds the two output file paths from the wall-clock timestamp string
    `now` (time.strftime in the source), and launches the external process.
    The source has no guard: every field is overwritten unconditionally. -/
def Receiver.start (r : Receiver) (frequency : String) (pfx : String)
    (now : String) : Receiver :=
  let iq := r.output_base ++ "/" ++ pfx ++ "-" ++ now ++ "-iq.wav"
  let demod := r.output_base ++ "/" ++ pfx ++ "-" ++ now ++ "-demod.wav"
  { r with
    frequency := some frequency
    iq_file_path := some iq
    demod_file_path := some demod
    proc := some { frequency := frequency, demod_file_path := demod,
                   iq_file_path := iq } }

/-- State effect of Receiver.stop: the process handle and the tuned
    frequency are cleared unconditionally (the file path fields are not
    touched by the source). -/
def Receiver.stopped (r : Receiver) : Receiver :=
  { r with proc := none, frequency := none }

/-- Method Receiver.stop: terminate the process, wait for the returncode,
    warn when it is neither 0 nor -15, then clear proc and frequency.
    Calling stop with no process is an attribute error in the source,
    modelled as none.  The Bool is the warning flag. -/
def Receiver.stop (r : Receiver) (returncode : Int) :
    Option (Receiver × Bool) :=
  match r.proc with
  | none => none
  | some _ =>
      some (r.stopped, if returncode = 0 ∨ returncode = -15 then false else true)

/-- Method Receiver.running: not (self.proc is None). -/
def Receiver.running (r : Receiver) : Bool :=
  r.proc.isSome

/-- Outcome of handling one pass in the per-tick loop: the pass is kept
    (possibly with a new status), removed from the list, or the loop raises
    RuntimeError (fatal). -/
inductive StepResult where
  | keep (p : Pass) (r : Receiver)
  | removed (r : Receiver)
  | fatal
deriving DecidableEq

/-- Body of the per-pass handling loop of the source (one iteration), at
    tick time `t` with wall-clock timestamp string `ts`. -/
def handlePass (t : ℚ) (ts : String) (p : Pass) (r : Receiver) : StepResult :=
  match p.status with
  | Status.future =>
      if t > p.«begin» then
        if r.running then
          StepResult.keep (p.set_status Status.deferred) r
        else
          StepResult.keep (p.set_status Status.receiving)
            (r.start p.sat.frequency p.sat.output_pfx ts)
      else StepResult.keep p r
  | Status.deferred =>
      if r.running then StepResult.keep p r
      else
        StepResult.keep (p.set_status Status.receiving)
          (r.start p.sat.frequency p.sat.output_pfx ts)
  | Status.receiving =>
      if t > p.«end» then
        if r.running then
          if r.frequency = some p.sat.frequency then
            StepResult.removed r.stopped
          else
            StepResult.removed r
        else StepResult.fatal
      else StepResult.keep p r

/-- The source iterates `for p in passes` and calls passes.remove(p) inside
    the loop.  CPython list iteration is by index, so removing the current
    element shifts the list left and the element right after the removed one
    is skipped (kept in the list but not handled this tick).  The function
    returns the final list, the final receiver and the trace of the passes
    that were actually handled; none models an uncaught RuntimeError. -/
def handlePasses (t : ℚ) (ts : String) :
    List Pass → Receiver → Option (List Pass × Receiver × List Pass)
  | [], r => some ([], r, [])
  | p :: rest, r =>
      match handlePass t ts p r with
      | StepResult.keep p' r' =>
          match handlePasses t ts rest r' with
          | none => none
          | some (l, r'', tr) => some (p' :: l, r'', p :: tr)
      | StepResult.removed r' =>
          match rest with
          | [] => some ([], r', [p])
          | q :: rest' =>
              match handlePasses t ts rest' r' with
              | none => none
              | some (l, r'', tr) => some (q :: l, r'', p :: tr)
      | StepResult.fatal => none

/-- One minute as an ephem date increment (ephem dates count days). -/
def ephem_minute : ℚ := 1 / 1440

/-- Recomputation of one satellite inside the tick (the body of the
    first for-loop of the main loop).  `pred` is what the external
    predictor would answer; none models an ephem exception (no further
    passes), which the source does not catch.  Returns the updated
    satellite and the pass to append, if any. -/
def satRecompute (t : ℚ) (sat : Satellite) (pred : Option EphemPass) :
    Option (Satellite × Option Pass) :=
  if t > sat.next_check_time then
    match pred with
    | none => none
    | some ep =>
        let np := Pass.init t ep sat
        some ({ sat with next_check_time := np.«end» + ephem_minute },
              if np.interesting then some np else none)
  else some (sat, none)

/-- The whole recomputation phase: every satellite in order, paired with
    its predictor answer; the new passes are appended in satellite order. -/
def calcNewPasses (t : ℚ) :
    List Satellite → List (Option EphemPass) →
    Option (List Satellite × List Pass)
  | [], [] => some ([], [])
  | [], _ :: _ => none
  | _ :: _, [] => none
  | sat :: sats, pred :: preds =>
      match satRecompute t sat pred with
      | none => none
      | some (sat', pOpt) =>
          match calcNewPasses t sats preds with
          | none => none
          | some (sats', ps) => some (sat' :: sats', pOpt.toList ++ ps)

/-- The mutable state of the main loop. -/
structure LoopState where
  satellites : List Satellite
  passes : List Pass
  receiver : Receiver
deriving DecidableEq

/-- External inputs consumed by one tick: the clock, the wall-clock
    timestamp string, and the predictor's answers (one slot per
    satellite, read only for satellites whose recomputation triggers). -/
structure TickInput where
  t : ℚ
  ts : String
  preds : List (Option EphemPass)
deriving DecidableEq

/-- One iteration of the main while-loop: recompute satellites whose
    next_check_time has elapsed (appending the interesting new passes),
    then run the pass-handling loop.  none models an uncaught exception
    terminating the process. -/
def tick (inp : TickInput) (s : LoopState) : Option LoopState :=
  match calcNewPasses inp.t s.satellites inp.preds with
  | none => none
  | some (sats', newPasses) =>
      match handlePasses inp.t inp.ts (s.passes ++ newPasses) s.receiver with
      | none => none
      | some (passes', r', _) =>
          some { satellites := sats', passes := passes', receiver := r' }

/-- Iterated ticks of the main loop. -/
def runTicks : List TickInput → LoopState → Option LoopState
  | [], s => some s
  | inp :: rest, s =>
      match tick inp s with
      | none => none
      | some s' => runTicks rest s'

/-- The state the source enters the loop with: all configured satellites,
    an empty live list and an idle receiver. -/
def initState (sats : List Satellite) (output_base : String) : LoopState :=
  { satellites := sats, passes := [], receiver := Receiver.init output_base }

/-- Number of passes with status receiving (the active state) in a list. -/
def activeCount (l : List Pass) : Nat :=
  l.countP (fun p => decide (p.status = Status.receiving))

/-- The scheduler invariant: at most one active pass in the live set, and
    every active pass finds the receiver busy. -/
def SchedInv (l : List Pass) (r : Receiver) : Prop :=
  activeCount l ≤ 1 ∧ ∀ p ∈ l, p.status = Status.receiving → r.running = true

/-
  Concrete inputs used by witnesses and counterexamples.
-/

/-- Satellite used by the C3 scenarios. -/
def satC3 : Satellite :=
  { tle_name := "S3", frequency := "f3", output_pfx := "p3", next_check_time := 0 }

/-- A queued pass whose window opens at time 5. -/
def passC3 : Pass :=
  { interesting := true, «begin» := 5, tca := 6, «end» := 7,
    max_elevation := 40, sat := satC3, status := Status.future }

/-- An idle receiver. -/
def idleRecv : Receiver := Receiver.init "out"

/-- Satellite used by the C4 scenario. -/
def satC4 : Satellite :=
  { tle_name := "S4", frequency := "f4", output_pfx := "p4", next_check_time := 0 }

/-- An active pass that ends at time 7. -/
def passC4 : Pass :=
  { interesting := true, «begin» := 1, tca := 2, «end» := 7,
    max_elevation := 40, sat := satC4, status := Status.receiving }

/-- A receiver busy recording satC4's frequency. -/
def busyRecvC4 : Receiver :=
  { output_base := "o",
    proc := some { frequency := "f4", demod_file_path := "d", iq_file_path := "i" },
    frequency := some "f4", iq_file_path := some "i", demod_file_path := some "d" }

/-- An active pass (ending at 7) used by the C5 scenario. -/
def passC5 : Pass :=
  { interesting := true, «begin» := 1, tca := 2, «end» := 7,
    max_elevation := 40, sat := satC3, status := Status.receiving }

/-- Satellite whose next check is scheduled at time 100. -/
def satC6 : Satellite :=
  { tle_name := "S6", frequency := "f6", output_pfx := "p6", next_check_time := 100 }

/-- A predictor answer describing an already-finished window (rise 49, set 50). -/
def epC6 : EphemPass :=
  { rise_time := 49, transit_time := 49, transit_alt_deg := 40, set_time := 50 }

/-- satC6 after recomputing at time 101 on epC6. -/
def satC6' : Satellite :=
  { tle_name := "S6", frequency := "f6", output_pfx := "p6",
    next_check_time := 50 + ephem_minute }

/-- Satellite used by the C6 witness. -/
def satC6w : Satellite :=
  { tle_name := "W6", frequency := "fw", output_pfx := "pw", next_check_time := 0 }

/-- Predictor answer used by the C6 witness. -/
def epC6w : EphemPass :=
  { rise_time := 2, transit_time := 3, transit_alt_deg := 40, set_time := 4 }

/-- A receiver busy recording frequency "f7" (C7 scenarios). -/
def busyRecvC7 : Receiver :=
  { output_base := "o7",
    proc := some { frequency := "f7", demod_file_path := "d7", iq_file_path := "i7" },
    frequency := some "f7", iq_file_path := some "i7", demod_file_path := some "d7" }

/-- Satellites used by the C8 scenarios. -/
def satC8a : Satellite :=
  { tle_name := "A8", frequency := "fa", output_pfx := "pa", next_check_time := 0 }

/-- Second satellite of the C8 scenarios. -/
def satC8b : Satellite :=
  { tle_name := "B8", frequency := "fb", output_pfx := "pb", next_check_time := 0 }

/-- A predictor answer for the C8 scenarios. -/
def epC8 : EphemPass :=
  { rise_time := 300, transit_time := 310, transit_alt_deg := 50, set_time := 320 }

/-- Satellites used by the C9 scenario. -/
def satC9a : Satellite :=
  { tle_name := "A9", frequency := "f9", output_pfx := "qa", next_check_time := 0 }

/-- Second satellite of the C9 scenario. -/
def satC9b : Satellite :=
  { tle_name := "B9", frequency := "g9", output_pfx := "qb", next_check_time := 0 }

/-- An active pass (already past its end at tick time 1) owned by satC9a. -/
def passC9a : Pass :=
  { interesting := true, «begin» := 0, tca := 0, «end» := 0,
    max_elevation := 40, sat := satC9a, status := Status.receiving }

/-- A queued pass, already actionable at tick time 1, owned by satC9b. -/
def passC9b : Pass :=
  { interesting := true, «begin» := 0, tca := 1, «end» := 2,
    max_elevation := 40, sat := satC9b, status := Status.future }

/-- A receiver busy recording passC9a's frequency. -/
def busyRecvC9 : Receiver :=
  { output_base := "o9",
    proc := some { frequency := "f9", demod_file_path := "d9", iq_file_path := "i9" },
    frequency := some "f9", iq_file_path := some "i9", demod_file_path := some "d9" }

/-- Satellite used by the C1 witness run. -/
def satC1 : Satellite :=
  { tle_name := "S1", frequency := "f1", output_pfx := "p1", next_check_time := 0 }

/-- Predictor answer for the C1 witness run (a valid future window). -/
def epC1 : EphemPass :=
  { rise_time := 20, transit_time := 25, transit_alt_deg := 40, set_time := 30 }

/-- Tick inputs of the C1 witness run. -/
def ticksC1 : List TickInput := [{ t := 10, ts := "W1", preds := [some epC1] }]

/-- Final state of the C1 witness run. -/
def finalC1 : LoopState :=
  (runTicks ticksC1 (initState [satC1] "ob")).getD (initState [] "")

/-- Scenario used by the C9 witness: both passes still pending. -/
def outC9w : List Pass × Receiver × List Pass :=
  (handlePasses 1 "T9" [passC9b] idleRecv).getD ([], Receiver.init "", [])

/-- Pass used by the C2 witness (window already open at construction). -/
def epC2w : EphemPass :=
  { rise_time := 5, transit_time := 6, transit_alt_deg := 40, set_time := 3 }

/-- Satellite owning the C2 witness pass. -/
def satC2w : Satellite :=
  { tle_name := "W2", frequency := "f2", output_pfx := "p2", next_check_time := 0 }

/-
  Theorems.
-/

/-- C2: a freshly constructed Pass is invalid iff (begin ≤ now) or
    (peak elevation < the 35° threshold) or (end ≤ begin); a valid Pass
    starts in the queued state (status future), and during recomputation an
    invalid Pass is never handed to the live set (the appended component is
    none). -/
theorem pass_validity_classification :
    ∀ (now : ℚ) (ep : EphemPass) (sat : Satellite),
      ((Pass.init now ep sat).interesting = false ↔
        (ep.rise_time ≤ now ∨ ep.transit_alt_deg < 35 ∨
          ep.set_time ≤ ep.rise_time)) ∧
      ((Pass.init now ep sat).interesting = true →
        (Pass.init now ep sat).status = Status.future) ∧
      (∀ (t : ℚ) (sat' : Satellite) (pOpt : Option Pass),
        satRecompute t sat (some ep) = some (sat', pOpt) →
        (Pass.init t ep sat).interesting = false → pOpt = none) := by
  intro now ep sat
  refine ⟨?_, fun _ => rfl, ?_⟩
  · simp only [Pass.init]
    split_ifs with h1 h2 h3 <;> simp_all
  · intro t sat' pOpt h hbad
    unfold satRecompute at h
    split at h
    · simp only [hbad, if_false, Bool.false_eq_true] at h
      exact (congrArg Prod.snd (Option.some.inj h)).symm
    · exact (congrArg Prod.snd (Option.some.inj h)).symm

/-- C2 witness: a pass whose window is already open (and degenerate) at
    construction is classified invalid. -/
theorem pass_validity_classification_witness :
    (Pass.init 10 epC2w satC2w).interesting = false :=
  (pass_validity_classification 10 epC2w satC2w).1.mpr (Or.inl (by decide))

/-- C3 counterexample: at a tick where now equals begin exactly (now ≥ begin
    holds) with the arbiter idle, the handling loop leaves the queued pass
    untouched — no arbiter call, the status stays queued, contradicting the
    claimed transition at now ≥ begin (the source requires t > begin). -/
theorem queued_at_begin_untouched :
    handlePass 5 "T3" passC3 idleRecv = StepResult.keep passC3 idleRecv ∧
    passC3.status = Status.future ∧ (5:ℚ) ≥ passC3.«begin» ∧
    idleRecv.running = false := by
  decide

/-- C3 (amended: the transition fires at now strictly greater than begin):
    a queued pass whose begin is strictly past is started (arbiter idle) or
    deferred with the arbiter untouched (arbiter busy). -/
theorem queued_transition :
    ∀ (t : ℚ) (ts : String) (p : Pass) (r : Receiver),
      p.status = Status.future → t > p.«begin» →
      (r.running = true →
        handlePass t ts p r = StepResult.keep (p.set_status Status.deferred) r) ∧
      (r.running = false →
        handlePass t ts p r =
          StepResult.keep (p.set_status Status.receiving)
            (r.start p.sat.frequency p.sat.output_pfx ts)) := by
  intro t ts p r hst hbt
  constructor <;> intro hr <;> simp [handlePass, hst, hbt, hr]

/-- C3 witness: at time 6 > begin = 5 the queued pass passC3 is started. -/
theorem queued_transition_witness :
    handlePass 6 "T3" passC3 idleRecv =
      StepResult.keep (passC3.set_status Status.receiving)
        (idleRecv.start passC3.sat.frequency passC3.sat.output_pfx "T3") :=
  (queued_transition 6 "T3" passC3 idleRecv rfl (by decide)).2 rfl

/-- C4 counterexample: at a tick where now equals end exactly (now ≥ end
    holds) with the arbiter busy and tuned to the pass's frequency, the pass
    is neither stopped nor removed — the loop keeps it and the receiver
    unchanged, contradicting the claimed transition at now ≥ end (the source
    requires t > end). -/
theorem active_at_end_not_removed :
    handlePasses 7 "T4" [passC4] busyRecvC4 =
      some ([passC4], busyRecvC4, [passC4]) ∧
    passC4.status = Status.receiving ∧ (7:ℚ) ≥ passC4.«end» ∧
    busyRecvC4.running = true ∧ busyRecvC4.frequency = some passC4.sat.frequency := by
  decide

/-- C4 (amended: the transition fires at now strictly greater than end):
    an active pass strictly past its end, with the arbiter busy and tuned to
    its frequency, causes arbiter.stop() (state effect Receiver.stopped) and
    is removed from the live set (its closed state). -/
theorem active_past_end_stop_and_remove :
    ∀ (t : ℚ) (ts : String) (p : Pass) (r : Receiver),
      p.status = Status.receiving → t > p.«end» → r.running = true →
      r.frequency = some p.sat.frequency →
      handlePasses t ts [p] r = some ([], r.stopped, [p]) := by
  intro t ts p r h1 h2 h3 h4
  simp [handlePasses, handlePass, h1, h2, h3, h4]

/-- C4 witness: at time 8 > end = 7 the active pass passC4 is stopped and
    removed. -/
theorem active_past_end_stop_and_remove_witness :
    handlePasses 8 "T4" [passC4] busyRecvC4 =
      some ([], busyRecvC4.stopped, [passC4]) :=
  active_past_end_stop_and_remove 8 "T4" passC4 busyRecvC4 rfl (by decide) rfl rfl

/-- C5 counterexample: at a tick where now equals end exactly (now ≥ end
    holds) with the pass active and the arbiter idle, the process does not
    abort: the handling loop returns normally with the pass kept, because the
    source only enters the branch at t > end. -/
theorem active_at_end_idle_no_abort :
    handlePasses 7 "T5" [passC5] idleRecv =
      some ([passC5], idleRecv, [passC5]) ∧
    passC5.status = Status.receiving ∧ (7:ℚ) ≥ passC5.«end» ∧
    idleRecv.running = false := by
  decide

/-- C5 (amended: the abort fires at now strictly greater than end): an
    active pass strictly past its end with the arbiter idle makes the loop
    raise RuntimeError (modelled none), aborting the process whatever else
    is in the live set. -/
theorem active_past_end_idle_fatal :
    ∀ (t : ℚ) (ts : String) (p : Pass) (rest : List Pass) (r : Receiver),
      p.status = Status.receiving → t > p.«end» → r.running = false →
      handlePasses t ts (p :: rest) r = none := by
  intro t ts p rest r h1 h2 h3
  simp [handlePasses, handlePass, h1, h2, h3]

/-- C5 witness: at time 8 > end = 7 with an idle receiver the loop aborts. -/
theorem active_past_end_idle_fatal_witness :
    handlePasses 8 "T5" [passC5] idleRecv = none :=
  active_past_end_idle_fatal 8 "T5" passC5 [] idleRecv rfl (by decide) rfl

/-- C6 counterexample: recomputation at time 101 (past next_check_time =
    100) on a predictor answer whose set time is 50 moves the next-check
    timestamp to 50 + one minute, which is smaller than before — the
    claimed strict increase fails for such a predictor answer. -/
theorem next_check_can_decrease :
    satRecompute 101 satC6 (some epC6) = some (satC6', none) ∧
    ¬ (satC6.next_check_time < satC6'.next_check_time) := by
  constructor
  · rfl
  · show ¬ ((100 : ℚ) < 50 + ephem_minute)
    norm_num [ephem_minute]

/-- C6 (amended: the strict increase additionally needs the predicted end
    to be no earlier than the previous next-check timestamp): every
    triggered recomputation sets the next-check timestamp to exactly the
    predicted pass's end plus the one-minute margin, regardless of the new
    Pass's validity, and that value strictly exceeds the previous next-check
    timestamp whenever the predicted end is at or after it. -/
theorem recompute_advances_check_time :
    ∀ (t : ℚ) (sat : Satellite) (ep : EphemPass),
      t > sat.next_check_time →
      satRecompute t sat (some ep) =
        some ({ sat with next_check_time := ep.set_time + ephem_minute },
              if (Pass.init t ep sat).interesting then some (Pass.init t ep sat)
              else none) ∧
      (sat.next_check_time ≤ ep.set_time →
        sat.next_check_time < ep.set_time + ephem_minute) := by
  intro t sat ep h
  constructor
  · unfold satRecompute
    rw [if_pos h]
    rfl
  · intro hle
    have hm : (0 : ℚ) < ephem_minute := by norm_num [ephem_minute]
    linarith

/-- C6 witness: a triggered recomputation on satC6w and epC6w, whose set
    time 4 is past the old next-check 0, strictly advances the timestamp. -/
theorem recompute_advances_check_time_witness :
    satC6w.next_check_time < epC6w.set_time + ephem_minute :=
  (recompute_advances_check_time 1 satC6w epC6w (by decide)).2 (by decide)

/-- C7: for a busy receiver, stop() always succeeds and leaves the receiver
    not busy with no tuned frequency, whatever the process returncode; the
    warning flag is raised exactly when the returncode is neither 0 nor the
    cooperative-termination code -15, and it does not affect the state. -/
theorem stop_always_frees :
    ∀ (r : Receiver) (returncode : Int), r.running = true →
      r.stop returncode =
        some (r.stopped,
              if returncode = 0 ∨ returncode = -15 then false else true) ∧
      r.stopped.running = false ∧ r.stopped.frequency = none := by
  intro r returncode h
  unfold Receiver.stop Receiver.stopped
  cases hp : r.proc with
  | none => rw [Receiver.running, hp] at h; cases h
  | some pi => exact ⟨rfl, rfl, rfl⟩

/-- C7 witness: stopping busyRecvC7 with abnormal returncode 1 still frees
    the resource (warning flag true). -/
theorem stop_always_frees_witness :
    busyRecvC7.stop 1 =
      some (busyRecvC7.stopped,
            if (1 : Int) = 0 ∨ (1 : Int) = -15 then false else true) ∧
    busyRecvC7.stopped.running = false ∧
    busyRecvC7.stopped.frequency = none :=
  stop_always_frees busyRecvC7 1 rfl

/-- C10: Receiver.start never rejects a call: for every receiver state,
    busy included, it overwrites the tuned frequency, both output file
    paths and the process handle with those of a newly launched process,
    and leaves the receiver busy; nothing of a previously tracked process
    remains. -/
theorem start_unconditionally_overwrites :
    ∀ (r : Receiver) (frequency pfx now : String),
      r.start frequency pfx now =
        { output_base := r.output_base
          proc := some
            { frequency := frequency
              demod_file_path :=
                r.output_base ++ "/" ++ pfx ++ "-" ++ now ++ "-demod.wav"
              iq_file_path :=
                r.output_base ++ "/" ++ pfx ++ "-" ++ now ++ "-iq.wav" }
          frequency := some frequency
          iq_file_path :=
            some (r.output_base ++ "/" ++ pfx ++ "-" ++ now ++ "-iq.wav")
          demod_file_path :=
            some (r.output_base ++ "/" ++ pfx ++ "-" ++ now ++ "-demod.wav") } ∧
      (r.start frequency pfx now).running = true := by
  intro r frequency pfx now
  exact ⟨rfl, rfl⟩

/-- Helper for C8: a triggered satellite whose predictor answer is missing
    makes the whole recomputation phase fail, wherever it sits in the
    satellite list. -/
theorem calcNewPasses_pred_failure :
    ∀ (t : ℚ) (sats1 : List Satellite) (preds1 : List (Option EphemPass))
      (sat : Satellite) (sats2 : List Satellite)
      (preds2 : List (Option EphemPass)),
      sats1.length = preds1.length → t > sat.next_check_time →
      calcNewPasses t (sats1 ++ sat :: sats2) (preds1 ++ none :: preds2) =
        none := by
  intro t sats1
  induction sats1 with
  | nil =>
      intro preds1 sat sats2 preds2 hlen ht
      have : preds1 = [] := List.length_eq_zero.mp hlen.symm
      subst this
      simp only [List.nil_append]
      unfold calcNewPasses satRecompute
      rw [if_pos ht]
  | cons s ss ih =>
      intro preds1 sat sats2 preds2 hlen ht
      cases preds1 with
      | nil => cases hlen
      | cons pr ps =>
          simp only [List.cons_append]
          unfold calcNewPasses
          cases hsr : satRecompute t s pr with
          | none => rfl
          | some x =>
              cases x with
              | mk s' pOpt =>
                  rw [ih ps sat sats2 preds2 (by simpa using hlen) ht]

/-- C8 (amended: a predictor failure is fatal for the whole process, not
    only for the failing object): if any triggered Tracked Object's
    predictor cannot produce a result, the tick dies with the uncaught
    exception — no object or Pass is scheduled further. -/
theorem predictor_failure_fatal :
    ∀ (t : ℚ) (ts : String) (sats1 : List Satellite)
      (preds1 : List (Option EphemPass)) (sat : Satellite)
      (sats2 : List Satellite) (preds2 : List (Option EphemPass))
      (passes : List Pass) (r : Receiver),
      sats1.length = preds1.length → t > sat.next_check_time →
      tick { t := t, ts := ts, preds := preds1 ++ none :: preds2 }
        { satellites := sats1 ++ sat :: sats2, passes := passes,
          receiver := r } = none := by
  intro t ts sats1 preds1 sat sats2 preds2 passes r hlen ht
  unfold tick
  rw [calcNewPasses_pred_failure t sats1 preds1 sat sats2 preds2 hlen ht]

/-- C8 counterexample: satC8a's predictor fails at a tick where both
    satellites are due for recomputation; the claim promises the process
    survives and satC8b keeps being scheduled, but the tick dies whole. -/
theorem predictor_failure_kills_process :
    tick { t := 200, ts := "", preds := [none, some epC8] }
      { satellites := [satC8a, satC8b], passes := [],
        receiver := Receiver.init "o8" } = none := by
  rfl

/-- C8 witness: the amended statement applied with the failing satellite in
    second position. -/
theorem predictor_failure_fatal_witness :
    tick { t := 200, ts := "x", preds := [some epC8, none] }
      { satellites := [satC8b, satC8a], passes := [],
        receiver := Receiver.init "o8" } = none :=
  predictor_failure_fatal 200 "x" [satC8b] [some epC8] satC8a [] [] []
    (Receiver.init "o8") rfl (by decide)

/-- Helper for C9: the trace of handled passes is a subsequence of the
    list the loop started on (strong induction on the list length, since a
    removal consumes two elements at once). -/
theorem handled_trace_sublist_aux :
    ∀ (n : Nat) (t : ℚ) (ts : String) (l : List Pass), l.length ≤ n →
      ∀ (r : Receiver) (out : List Pass × Receiver × List Pass),
        handlePasses t ts l r = some out → out.2.2.Sublist l := by
  intro n
  induction n with
  | zero =>
      intro t ts l hl r out h
      have hnil : l = [] := List.length_eq_zero.mp (Nat.le_zero.mp hl)
      subst hnil
      simp only [handlePasses] at h
      cases h
      exact List.Sublist.refl _
  | succ n ih =>
      intro t ts l hl r out h
      cases l with
      | nil =>
          simp only [handlePasses] at h
          cases h
          exact List.Sublist.refl _
      | cons p rest =>
          simp only [handlePasses] at h
          cases hstep : handlePass t ts p r with
          | keep p' r' =>
              simp only [hstep] at h
              cases hrec : handlePasses t ts rest r' with
              | none => simp only [hrec] at h; cases h
              | some out1 =>
                  obtain ⟨l1, r1, tr1⟩ := out1
                  simp only [hrec] at h
                  cases h
                  have h1 : tr1.Sublist rest :=
                    ih t ts rest (by simp only [List.length_cons] at hl; omega)
                      r' (l1, r1, tr1) hrec
                  exact List.Sublist.cons₂ p h1
          | removed r' =>
              simp only [hstep] at h
              cases rest with
              | nil =>
                  cases h
                  exact List.Sublist.refl _
              | cons q rest' =>
                  cases hrec : handlePasses t ts rest' r' with
                  | none => simp only [hrec] at h; cases h
                  | some out1 =>
                      obtain ⟨l1, r1, tr1⟩ := out1
                      simp only [hrec] at h
                      cases h
                      have h1 : tr1.Sublist rest' :=
                        ih t ts rest' (by simp only [List.length_cons] at hl; omega)
                          r' (l1, r1, tr1) hrec
                      exact List.Sublist.cons₂ p (List.Sublist.cons q h1)
          | fatal => simp only [hstep] at h; cases h

/-- C9 (amended: each live Pass is considered at most once, in order, but
    not always exactly once: in a tick where a Pass is removed, the Pass
    immediately following it is skipped): the trace of passes the per-tick
    loop actually evaluates is a subsequence of the live set the tick
    started with. -/
theorem tick_considers_passes_in_order :
    ∀ (t : ℚ) (ts : String) (l : List Pass) (r : Receiver)
      (out : List Pass × Receiver × List Pass),
      handlePasses t ts l r = some out → out.2.2.Sublist l :=
  fun t ts l r out h =>
    handled_trace_sublist_aux l.length t ts l (Nat.le_refl _) r out h

/-- C9 witness: in a run of the loop over a single queued pass the trace is
    a subsequence of the starting list. -/
theorem tick_considers_passes_in_order_witness :
    outC9w.2.2.Sublist [passC9b] :=
  tick_considers_passes_in_order 1 "T9" [passC9b] idleRecv outC9w rfl

/-- C9 counterexample: removing passC9a mid-iteration makes the loop skip
    passC9b entirely in that tick — the trace of considered passes is only
    [passC9a], and passC9b is left queued even though its window is open and
    the receiver was freed, contradicting "each Pass is considered exactly
    once". -/
theorem removal_skips_next_pass :
    handlePasses 1 "T9" [passC9a, passC9b] busyRecvC9 =
      some ([passC9b], busyRecvC9.stopped, [passC9a]) ∧
    passC9b ∉ [passC9a] ∧ passC9b.status = Status.future := by
  decide

/-- Unfolding lemma: active passes in a cons cell. -/
theorem activeCount_cons (p : Pass) (l : List Pass) :
    activeCount (p :: l) =
      activeCount l + (if p.status = Status.receiving then 1 else 0) := by
  simp [activeCount, List.countP_cons]

/-- Unfolding lemma: active passes in an appended list. -/
theorem activeCount_append (l1 l2 : List Pass) :
    activeCount (l1 ++ l2) = activeCount l1 + activeCount l2 := by
  simp [activeCount, List.countP_append]

/-- A list with no active passes has no member with status receiving. -/
theorem not_active_of_count_zero {l : List Pass} (h : activeCount l = 0)
    {q : Pass} (hq : q ∈ l) : q.status ≠ Status.receiving := by
  intro hqs
  have h' : l.countP (fun p => decide (p.status = Status.receiving)) = 0 := h
  have := List.countP_eq_zero.mp h' q hq
  simp [hqs] at this

/-- When the receiver is idle, the invariant forces zero active passes. -/
theorem count_zero_of_idle {l : List Pass} {r : Receiver}
    (hInv : SchedInv l r) (hidle : r.running = false) : activeCount l = 0 := by
  apply List.countP_eq_zero.mpr
  intro q hq
  simp only [decide_eq_true_eq]
  intro hqs
  have := hInv.2 q hq hqs
  rw [hidle] at this
  cases this

/-- A busy receiver satisfies the membership half of the invariant for
    free. -/
theorem schedInv_of_running {l : List Pass} {r : Receiver}
    (h1 : activeCount l ≤ 1) (hr : r.running = true) : SchedInv l r :=
  ⟨h1, fun _ _ _ => hr⟩

/-- Receiver.start always leaves the receiver busy. -/
theorem running_start (r : Receiver) (f pfx ts : String) :
    (r.start f pfx ts).running = true := rfl

/-- Case analysis of a keep outcome of handlePass: either nothing changed,
    or a non-active pass changed to another non-active status with the
    receiver untouched, or an idle receiver was started and the pass went
    active. -/
theorem handlePass_keep_spec {t : ℚ} {ts : String} {p : Pass} {r : Receiver}
    {p' : Pass} {r' : Receiver}
    (h : handlePass t ts p r = StepResult.keep p' r') :
    (p' = p ∧ r' = r) ∨
    (p.status ≠ Status.receiving ∧ p'.status ≠ Status.receiving ∧ r' = r) ∨
    (r.running = false ∧ p'.status = Status.receiving ∧ r'.running = true) := by
  unfold handlePass at h
  split at h
  · -- status future
    rename_i hst
    split_ifs at h with hb hr
    · cases h
      refine Or.inr (Or.inl ⟨?_, ?_, rfl⟩)
      · rw [hst]; decide
      · simp [Pass.set_status]
    · cases h
      exact Or.inr (Or.inr ⟨by simpa using hr, rfl, rfl⟩)
    · cases h
      exact Or.inl ⟨rfl, rfl⟩
  · -- status deferred
    split_ifs at h with hr
    · cases h
      exact Or.inl ⟨rfl, rfl⟩
    · cases h
      exact Or.inr (Or.inr ⟨by simpa using hr, rfl, rfl⟩)
  · -- status receiving
    split_ifs at h
    cases h
    exact Or.inl ⟨rfl, rfl⟩

/-- A removed outcome of handlePass happens only for an active pass. -/
theorem handlePass_removed_spec {t : ℚ} {ts : String} {p : Pass}
    {r : Receiver} {r' : Receiver}
    (h : handlePass t ts p r = StepResult.removed r') :
    p.status = Status.receiving := by
  unfold handlePass at h
  split at h
  · split_ifs at h
  · split_ifs at h
  · rename_i hst
    exact hst

/-- Handling one pass that is kept preserves the scheduler invariant over
    the whole live list (processed prefix `pre`, current pass `p`,
    unprocessed suffix `rest`). -/
theorem step_keep_inv {t : ℚ} {ts : String} (pre : List Pass) (p : Pass)
    (rest : List Pass) (r : Receiver) {p' : Pass} {r' : Receiver}
    (hInv : SchedInv (pre ++ p :: rest) r)
    (h : handlePass t ts p r = StepResult.keep p' r') :
    SchedInv (pre ++ p' :: rest) r' := by
  rcases handlePass_keep_spec h with ⟨hp, hr⟩ | ⟨hp1, hp2, hr⟩ | ⟨hidle, hp, hr⟩
  · subst hp; subst hr; exact hInv
  · subst hr
    obtain ⟨hc, hm⟩ := hInv
    constructor
    · rw [activeCount_append, activeCount_cons, if_neg hp2]
      rw [activeCount_append, activeCount_cons, if_neg hp1] at hc
      exact hc
    · intro q hq hqs
      rcases List.mem_append.mp hq with hq | hq
      · exact hm q (List.mem_append_left _ hq) hqs
      · rcases List.mem_cons.mp hq with rfl | hq
        · exact absurd hqs hp2
        · exact hm q (List.mem_append_right _ (List.mem_cons_of_mem _ hq)) hqs
  · have hzero : activeCount (pre ++ p :: rest) = 0 := count_zero_of_idle hInv hidle
    apply schedInv_of_running ?_ hr
    rw [activeCount_append, activeCount_cons] at hzero
    rw [activeCount_append, activeCount_cons, if_pos hp]
    omega

/-- Handling one pass that is removed preserves the scheduler invariant:
    the removed pass was the only active one, so whatever the receiver
    became, no active pass remains. -/
theorem step_removed_inv {t : ℚ} {ts : String} (pre : List Pass) (p : Pass)
    (rest : List Pass) (r : Receiver) {r' : Receiver}
    (hInv : SchedInv (pre ++ p :: rest) r)
    (h : handlePass t ts p r = StepResult.removed r') :
    SchedInv (pre ++ rest) r' := by
  have hps := handlePass_removed_spec h
  obtain ⟨hc, hm⟩ := hInv
  rw [activeCount_append, activeCount_cons, if_pos hps] at hc
  have hpre : activeCount pre = 0 := by omega
  have hrest : activeCount rest = 0 := by omega
  constructor
  · rw [activeCount_append, hpre, hrest]
    omega
  · intro q hq hqs
    rcases List.mem_append.mp hq with hq | hq
    · exact absurd hqs (not_active_of_count_zero hpre hq)
    · exact absurd hqs (not_active_of_count_zero hrest hq)

/-- Helper for C1: the whole per-tick handling loop preserves the scheduler
    invariant, for any already-processed prefix `pre` that stays in the live
    list (strong induction on the length of the unprocessed suffix). -/
theorem handlePasses_inv_aux :
    ∀ (n : Nat) (t : ℚ) (ts : String) (l : List Pass), l.length ≤ n →
      ∀ (pre : List Pass) (r : Receiver)
        (out : List Pass × Receiver × List Pass),
        SchedInv (pre ++ l) r → handlePasses t ts l r = some out →
        SchedInv (pre ++ out.1) out.2.1 := by
  intro n
  induction n with
  | zero =>
      intro t ts l hl pre r out hInv h
      have hnil : l = [] := List.length_eq_zero.mp (Nat.le_zero.mp hl)
      subst hnil
      simp only [handlePasses] at h
      cases h
      exact hInv
  | succ n ih =>
      intro t ts l hl pre r out hInv h
      cases l with
      | nil =>
          simp only [handlePasses] at h
          cases h
          exact hInv
      | cons p rest =>
          simp only [handlePasses] at h
          cases hstep : handlePass t ts p r with
          | keep p' r' =>
              simp only [hstep] at h
              cases hrec : handlePasses t ts rest r' with
              | none => simp only [hrec] at h; cases h
              | some out1 =>
                  obtain ⟨l1, r1, tr1⟩ := out1
                  simp only [hrec] at h
                  cases h
                  have hInv' : SchedInv ((pre ++ [p']) ++ rest) r' := by
                    rw [List.append_assoc]
                    exact step_keep_inv pre p rest r hInv hstep
                  have hres :=
                    ih t ts rest (by simp only [List.length_cons] at hl; omega)
                      (pre ++ [p']) r' (l1, r1, tr1) hInv' hrec
                  rw [List.append_assoc] at hres
                  exact hres
          | removed r' =>
              simp only [hstep] at h
              cases rest with
              | nil =>
                  cases h
                  exact step_removed_inv pre p [] r hInv hstep
              | cons q rest' =>
                  cases hrec : handlePasses t ts rest' r' with
                  | none => simp only [hrec] at h; cases h
                  | some out1 =>
                      obtain ⟨l1, r1, tr1⟩ := out1
                      simp only [hrec] at h
                      cases h
                      have hInv' : SchedInv ((pre ++ [q]) ++ rest') r' := by
                        rw [List.append_assoc]
                        exact step_removed_inv pre p (q :: rest') r hInv hstep
                      have hres :=
                        ih t ts rest'
                          (by simp only [List.length_cons] at hl; omega)
                          (pre ++ [q]) r' (l1, r1, tr1) hInv' hrec
                      rw [List.append_assoc] at hres
                      exact hres
          | fatal => simp only [hstep] at h; cases h

/-- A pass produced by a recomputation starts in status future. -/
theorem satRecompute_pass_future :
    ∀ (t : ℚ) (sat : Satellite) (pred : Option EphemPass) (sat' : Satellite)
      (np : Pass),
      satRecompute t sat pred = some (sat', some np) →
      np.status = Status.future := by
  intro t sat pred sat' np h
  unfold satRecompute at h
  split at h
  · cases pred with
    | none => cases h
    | some ep =>
        simp only [] at h
        split at h
        · have h2 := congrArg Prod.snd (Option.some.inj h)
          rw [← Option.some.inj h2]
          rfl
        · have h2 := congrArg Prod.snd (Option.some.inj h)
          cases h2
  · have h2 := congrArg Prod.snd (Option.some.inj h)
    cases h2

/-- All passes appended by the recomputation phase start in status future. -/
theorem calcNewPasses_all_future :
    ∀ (t : ℚ) (sats : List Satellite) (preds : List (Option EphemPass))
      (out : List Satellite × List Pass),
      calcNewPasses t sats preds = some out →
      ∀ p ∈ out.2, p.status = Status.future := by
  intro t sats
  induction sats with
  | nil =>
      intro preds out h p hp
      cases preds with
      | nil =>
          simp only [calcNewPasses] at h
          cases h
          exact absurd hp (List.not_mem_nil p)
      | cons _ _ =>
          simp only [calcNewPasses] at h
          cases h
  | cons s ss ih =>
      intro preds out h p hp
      cases preds with
      | nil =>
          simp only [calcNewPasses] at h
          cases h
      | cons pr ps =>
          simp only [calcNewPasses] at h
          cases hsr : satRecompute t s pr with
          | none =>
              simp only [hsr] at h
              cases h
          | some x =>
              obtain ⟨s', pOpt⟩ := x
              simp only [hsr] at h
              cases hrec : calcNewPasses t ss ps with
              | none =>
                  simp only [hrec] at h
                  cases h
              | some out1 =>
                  obtain ⟨ss', l⟩ := out1
                  simp only [hrec] at h
                  cases h
                  rcases List.mem_append.mp hp with hp | hp
                  · cases pOpt with
                    | none => exact absurd hp (List.not_mem_nil p)
                    | some np =>
                        have hpn : p = np := by simpa using hp
                        subst hpn
                        exact satRecompute_pass_future t s pr s' p hsr
                  · exact ih ps (ss', l) hrec p hp

/-- One tick of the main loop preserves the scheduler invariant. -/
theorem tick_inv :
    ∀ (inp : TickInput) (s s' : LoopState),
      SchedInv s.passes s.receiver → tick inp s = some s' →
      SchedInv s'.passes s'.receiver := by
  intro inp s s' hInv h
  unfold tick at h
  cases hc : calcNewPasses inp.t s.satellites inp.preds with
  | none =>
      simp only [hc] at h
      cases h
  | some out0 =>
      obtain ⟨sats', newPasses⟩ := out0
      simp only [hc] at h
      cases hh : handlePasses inp.t inp.ts (s.passes ++ newPasses) s.receiver with
      | none =>
          simp only [hh] at h
          cases h
      | some out =>
          obtain ⟨passes', r', tr⟩ := out
          simp only [hh] at h
          cases h
          have hfut :=
            calcNewPasses_all_future inp.t s.satellites inp.preds
              (sats', newPasses) hc
          have hnew : activeCount newPasses = 0 := by
            apply List.countP_eq_zero.mpr
            intro q hq
            simp [hfut q hq]
          have hInv0 : SchedInv (s.passes ++ newPasses) s.receiver := by
            obtain ⟨h1, h2⟩ := hInv
            constructor
            · rw [activeCount_append, hnew]
              omega
            · intro q hq hqs
              rcases List.mem_append.mp hq with hq | hq
              · exact h2 q hq hqs
              · exact absurd hqs (not_active_of_count_zero hnew hq)
          exact
            handlePasses_inv_aux (s.passes ++ newPasses).length inp.t inp.ts
              (s.passes ++ newPasses) (Nat.le_refl _) [] s.receiver
              (passes', r', tr) hInv0 hh

/-- Running any number of ticks preserves the scheduler invariant. -/
theorem runTicks_inv :
    ∀ (inputs : List TickInput) (s s' : LoopState),
      SchedInv s.passes s.receiver → runTicks inputs s = some s' →
      SchedInv s'.passes s'.receiver := by
  intro inputs
  induction inputs with
  | nil =>
      intro s s' hInv h
      simp only [runTicks] at h
      cases h
      exact hInv
  | cons inp rest ih =>
      intro s s' hInv h
      simp only [runTicks] at h
      cases hc : tick inp s with
      | none =>
          simp only [hc] at h
          cases h
      | some s1 =>
          simp only [hc] at h
          exact ih s1 s' (tick_inv inp s s1 hInv hc) h

/-- C1: in every run of the scheduler loop starting from an empty live set
    and an idle arbiter, after every tick at most one Pass in the live set
    has status active (receiving), and every active Pass finds the Resource
    Arbiter busy in the same tick. -/
theorem at_most_one_active_and_busy :
    ∀ (inputs : List TickInput) (sats : List Satellite) (base : String)
      (s : LoopState),
      runTicks inputs (initState sats base) = some s →
      SchedInv s.passes s.receiver := by
  intro inputs sats base s h
  have hInit : SchedInv (initState sats base).passes
      (initState sats base).receiver := by
    constructor
    · simp [initState, activeCount]
    · intro p hp
      simp [initState] at hp
  exact runTicks_inv inputs _ s hInit h

/-- C1 witness: a concrete one-tick run that appends a fresh pass satisfies
    the invariant at its final state. -/
theorem at_most_one_active_and_busy_witness :
    SchedInv finalC1.passes finalC1.receiver :=
  at_most_one_active_and_busy ticksC1 [satC1] "ob" finalC1 rfl
